import Mathlib

set_option autoImplicit false

namespace GrapesReact

/-!
Shallow embedding of the grapesjs-react-renderer plugin sources.

The JavaScript data is modelled as follows: a runtime value is a `JsValue`
(string, number, boolean, null, undefined, object or array); a JavaScript
object is an insertion-ordered association list `JsObj` with unique keys,
read with `oget` (property read, `none` for an absent key) and written with
`oset` (assignment: replaces the value in place when the key exists,
appends otherwise — this is exactly how insertion order behaves in JS).
`Object.keys(x).forEach` loops become `List.foldl` over the list, and the
common loop shape "for each key, if the value passes a test, assign a
transformed value" is captured once as `assignMapped`.
-/

inductive JsValue where
  | str (s : String)
  | num (n : Int)
  | bool (b : Bool)
  | null
  | undef
  | obj (fields : List (String × JsValue))
  | arr (elems : List JsValue)

abbrev JsObj := List (String × JsValue)

/-- Property read on a JS object: the value at the first matching key. -/
def alistFind {α : Type} : List (String × α) → String → Option α
  | [], _ => none
  | kv :: rest, key => if kv.1 == key then some kv.2 else alistFind rest key

def oget (o : JsObj) (key : String) : Option JsValue := alistFind o key

/-- Property assignment on a JS object: replace in place, else append. -/
def oset : JsObj → String → JsValue → JsObj
  | [], key, value => [(key, value)]
  | kv :: rest, key, value =>
    if kv.1 == key then (kv.1, value) :: rest else kv :: oset rest key value

def okeys (o : JsObj) : List String := o.map Prod.fst

/-- Generic translation of the forEach-with-filter-and-assign loop shape:
fold the source object, and for every entry passing the test assign the
transformed value into the accumulator. -/
def assignMapped (p : String → JsValue → Bool) (f : String → JsValue → JsValue)
    (init : JsObj) (src : JsObj) : JsObj :=
  src.foldl (fun acc kv => if p kv.1 kv.2 then oset acc kv.1 (f kv.1 kv.2) else acc) init

def JsValue.isUndef : JsValue → Bool
  | .undef => true
  | _ => false

def JsValue.isNull : JsValue → Bool
  | .null => true
  | _ => false

def JsValue.isEmptyStr : JsValue → Bool
  | .str "" => true
  | _ => false

/-!
Translations of src/helpers.ts.

`JSON.parse` is an external runtime facility; it is modelled as an explicit
parameter `jsonParse : String → Option JsValue`, where `none` stands for the
parse throwing (the only behaviour of it the sources depend on).
-/

/-- `parseJsonTrait` (src/helpers.ts): JSON-decode a textual value, falling
back to the original value (after a console warning) when decoding throws;
non-strings pass through untouched. -/
def parseJsonTrait (jsonParse : String → Option JsValue) (value : JsValue) : JsValue :=
  match value with
  | .str s =>
    match jsonParse s with
    | some parsed => parsed
    | none => .str s
  | v => v

/-- The inner merged object built by `createWrapperMapper` (src/helpers.ts):
`wrapped` collects defaults whose value is not `undefined`, then attributes
whose value is neither `undefined` nor `null`; the returned object is
`Object.assign({}, defaults, wrapped)`. -/
def wrapperMerged (defaults attrs : JsObj) : JsObj :=
  let wrapped : JsObj :=
    assignMapped (fun _ v => !v.isUndef) (fun _ v => v) [] defaults
  let wrapped : JsObj :=
    assignMapped (fun _ v => !v.isUndef && !v.isNull) (fun _ v => v) wrapped attrs
  assignMapped (fun _ _ => true) (fun _ v => v)
    (assignMapped (fun _ _ => true) (fun _ v => v) [] defaults) wrapped

/-- `createWrapperMapper` (src/helpers.ts), with the returned closure applied
to its `attrs` argument: nests the merged object under `wrapperKey`. -/
def createWrapperMapper (wrapperKey : String) (defaults : JsObj) (attrs : JsObj) : JsObj :=
  oset [] wrapperKey (.obj (wrapperMerged defaults attrs))

/-- `mergeDefaults` (src/helpers.ts): start from a spread copy of `defaults`,
then assign every attribute whose value is neither `undefined` nor the empty
string. -/
def mergeDefaults (defaults attrs : JsObj) : JsObj :=
  assignMapped (fun _ v => !v.isUndef && !v.isEmptyStr) (fun _ v => v)
    (assignMapped (fun _ _ => true) (fun _ v => v) [] defaults) attrs

/-!
Translations of src/index.tsx (the plugin itself).

React component references and provider component references are opaque run
time values; they are modelled by a `Nat` identity tag. A produced React
element records the component tag, its props object (minus the `children`
entry) and the optional child element; in the sources `children` always
overwrites any same-named entry of the spread props, so keeping it as a
separate slot is faithful.
-/

inductive TraitType where
  | text
  | number
  | select
  | checkbox
  | color
  | textarea
  | json
deriving DecidableEq

/-- `TraitDefinition` (src/index.tsx): the tagged union is flattened to a
record carrying the type tag plus the fields the claims depend on (`options`
is only populated for the `select` variant, `defaultValue` where declared);
the numeric `min`/`max`/`step` refinements play no role in the plugin logic
and are omitted. -/
structure TraitDefinition where
  type : TraitType
  name : String
  label : String
  defaultValue : Option JsValue := none
  options : List (String × String) := []

/-- `ComponentConfig` (src/index.tsx); the React component reference is an
opaque identity tag. -/
structure ComponentConfig where
  component : Nat
  traits : Option (List TraitDefinition) := none
  defaultProps : Option JsObj := none
  mapProps : Option (JsObj → JsObj) := none

/-- A registered value: either a bare React component or a full config
(the `components` option accepts both). -/
inductive ComponentEntry where
  | bare (component : Nat)
  | config (c : ComponentConfig)

/-- A React element: component tag, props (without `children`), child. -/
inductive RElement where
  | mk (component : Nat) (props : JsObj) (children : Option RElement)

def RElement.rootComponent : RElement → Nat
  | .mk c _ _ => c

def RElement.rootProps : RElement → JsObj
  | .mk _ props _ => props

/-- `ProviderConfig` (src/index.tsx). -/
structure ProviderConfig where
  component : Nat
  props : Option JsObj := none

/-- `ReactComponentsPluginOptions` (src/index.tsx). The `components` object
is an insertion-ordered list of name/entry pairs (JS object key order). -/
structure PluginOptions where
  components : List (String × ComponentEntry)
  defaultComponent : Option String := none
  Provider : Option Nat := none
  providerProps : Option JsObj := none
  providers : Option (List ProviderConfig) := none
  wrapComponent : Option (RElement → String → RElement) := none

/-- The wrapper closure returned by `createProviderWrapper`, defunctionalized
into the four possible shapes it can take. -/
inductive WrapStrategy where
  | custom (f : RElement → String → RElement)
  | providerList (ps : List ProviderConfig)
  | single (provider : Nat) (providerProps : Option JsObj)
  | ident

/-- The `Provider`/no-provider tail of `createProviderWrapper`. -/
def singleOrIdent (options : PluginOptions) : WrapStrategy :=
  match options.Provider with
  | some provider => .single provider options.providerProps
  | none => .ident

/-- `createProviderWrapper` (src/index.tsx): custom wrapper first, then a
non-empty providers list, then the single Provider, else identity. -/
def createProviderWrapper (options : PluginOptions) : WrapStrategy :=
  match options.wrapComponent with
  | some wrap => .custom wrap
  | none =>
    match options.providers with
    | some providers =>
      if providers.length > 0 then .providerList providers else singleOrIdent options
    | none => singleOrIdent options

/-- One provider layer: `React.createElement(cfg.component, { ...cfg.props,
children: child })` (absent props become just `children`). -/
def mkProviderElem (cfg : ProviderConfig) (child : RElement) : RElement :=
  .mk cfg.component (cfg.props.getD []) (some child)

/-- Application of the wrapper closure to an element and component name.
`providers.reduceRight((acc, cfg) => ..., element)` is `List.foldr`. -/
def applyWrap (strategy : WrapStrategy) (element : RElement) (componentName : String) : RElement :=
  match strategy with
  | .custom f => f element componentName
  | .providerList ps => ps.foldr mkProviderElem element
  | .single provider providerProps => .mk provider (providerProps.getD []) (some element)
  | .ident => element

/-- `defaultComponent || Object.keys(components)[0]` — the empty string is
falsy, so it also falls through to the first registered key. -/
def fallbackNameOf (defaultComponent : Option String) (componentKeys : List String) : Option String :=
  match defaultComponent with
  | some s => if s = "" then componentKeys.head? else some s
  | none => componentKeys.head?

/-- The default trait set synthesized for a bare component (src/index.tsx,
normalization branch). -/
def defaultSimpleTraits : List TraitDefinition :=
  [ { type := .text, name := "title", label := "Title" },
    { type := .text, name := "subtitle", label := "Subtitle" },
    { type := .text, name := "description", label := "Description" } ]

/-- Normalization loop of `createReactComponentsPlugin`: bare components are
wrapped in a minimal config with the three default text traits; configs pass
through unchanged. -/
def normalizeComponents (components : List (String × ComponentEntry)) :
    List (String × ComponentConfig) :=
  components.map fun nc =>
    match nc.2 with
    | .bare c => (nc.1, { component := c, traits := some defaultSimpleTraits })
    | .config cfg => (nc.1, cfg)

/-- The synthetic component-selector trait: a `select` trait named
`component` whose options enumerate the registered names. -/
def selectTrait (names : List String) : TraitDefinition :=
  { type := .select, name := "component", label := "Component",
    options := names.map fun n => (n, n) }

/-- One step of the trait-merge loop: push the trait unless a trait of the
same name is already present (`!baseTraits.find(t => t.name === trait.name)`). -/
def dedupStep (acc : List TraitDefinition) (t : TraitDefinition) : List TraitDefinition :=
  if acc.any (fun t2 => t2.name == t.name) then acc else acc ++ [t]

def dedupPushTraits (base : List TraitDefinition) (ts : List TraitDefinition) :
    List TraitDefinition :=
  ts.foldl dedupStep base

/-- `baseTraits` construction (src/index.tsx): start with the selector trait,
then fold every registered config's traits through the dedup push. -/
def buildBaseTraits (normalized : List (String × ComponentConfig)) : List TraitDefinition :=
  normalized.foldl (fun acc c => dedupPushTraits acc (c.2.traits.getD []))
    [selectTrait (normalized.map (·.1))]

/-- The `traitsMap` lookup (src/index.tsx): traits with a truthy (non-empty)
name are inserted with `Map.set`, so a later entry would win — hence the
last matching trait with a non-empty name. -/
def traitsMapGet (baseTraits : List TraitDefinition) (key : String) : Option TraitDefinition :=
  (baseTraits.filter fun t => !(t.name == "") && t.name == key).getLast?

/-- The per-plugin state computed once by `createReactComponentsPlugin` and
closed over by every render: the fallback name, the normalized registry, the
provider-wrapper choice and the merged trait list. -/
structure PluginState where
  fallbackName : Option String
  normalized : List (String × ComponentConfig)
  strategy : WrapStrategy
  baseTraits : List TraitDefinition

def createReactComponentsPlugin (options : PluginOptions) : PluginState :=
  let normalized := normalizeComponents options.components
  { fallbackName := fallbackNameOf options.defaultComponent (options.components.map (·.1))
    normalized := normalized
    strategy := createProviderWrapper options
    baseTraits := buildBaseTraits normalized }

/-- Attribute conversion at the top of `render`: keep only entries whose
value is a string, number, boolean, `undefined` or `null`. -/
def isPrimitiveAttr : JsValue → Bool
  | .str _ => true
  | .num _ => true
  | .bool _ => true
  | .undef => true
  | .null => true
  | .obj _ => false
  | .arr _ => false

def toComponentAttributes (raw : JsObj) : JsObj :=
  assignMapped (fun _ v => isPrimitiveAttr v) (fun _ v => v) [] raw

/-- `(typeof attrs.component === 'string' ? attrs.component : undefined) ||
fallbackName`: a non-empty selected string wins; anything else (absent,
non-string, empty string) falls back. -/
def resolveComponentName (fallbackName : Option String) (attrs : JsObj) : Option String :=
  match oget attrs "component" with
  | some (.str s) => if s = "" then fallbackName else some s
  | _ => fallbackName

/-- Seeding of `rawProps` with `config.defaultProps` entries whose value is
not `undefined`. -/
def seedDefaultProps (defaultProps : Option JsObj) : JsObj :=
  match defaultProps with
  | none => []
  | some dp => assignMapped (fun _ v => !v.isUndef) (fun _ v => v) [] dp

/-- The JSON refinement inside the attribute loop of `render`: when the
merged trait map marks the key as a `json` trait and the value is a string,
decode it, falling back to the raw string (after a warning) when the decode
throws; every other value passes through. -/
def applyJsonTrait (tmGet : String → Option TraitDefinition)
    (jsonParse : String → Option JsValue) (key : String) (value : JsValue) : JsValue :=
  match tmGet key, value with
  | some trait, .str s =>
    if trait.type == .json then
      match jsonParse s with
      | some parsed => parsed
      | none => .str s
    else .str s
  | _, v => v

/-- The `rawProps` object of `render`: defaults first, then every attribute
whose key is not reserved (`component`, `data-gjs-type`) and whose value is
not `undefined`, `null` or the empty string, JSON-decoded per the merged
trait map. -/
def buildRawProps (jsonParse : String → Option JsValue)
    (tmGet : String → Option TraitDefinition)
    (defaultProps : Option JsObj) (attrs : JsObj) : JsObj :=
  assignMapped
    (fun k v => !(k == "component") && !(k == "data-gjs-type")
        && !v.isUndef && !v.isNull && !v.isEmptyStr)
    (applyJsonTrait tmGet jsonParse)
    (seedDefaultProps defaultProps) attrs

/-- `finalProps`: a custom `mapProps` is applied to the converted attributes
and its result used verbatim, else the default `rawProps` path. -/
def finalPropsOf (jsonParse : String → Option JsValue)
    (tmGet : String → Option TraitDefinition)
    (config : ComponentConfig) (attrs : JsObj) : JsObj :=
  match config.mapProps with
  | some mapProps => mapProps attrs
  | none => buildRawProps jsonParse tmGet config.defaultProps attrs

/-- Outcome of one `render` call: either the early `return view` with no
mount (`noop`), or the element handed to the React root. -/
inductive RenderResult where
  | noop
  | mounted (element : RElement)

/-- The `render` lifecycle hook (src/index.tsx): convert the attributes,
resolve the component name (a JS property read with an `undefined` key reads
the key `"undefined"`), short-circuit when no config is registered under it,
otherwise mount the wrapped element built from the final props. -/
def render (jsonParse : String → Option JsValue) (st : PluginState)
    (rawAttrs : JsObj) : RenderResult :=
  let attrs := toComponentAttributes rawAttrs
  let componentName := (resolveComponentName st.fallbackName attrs).getD "undefined"
  match alistFind st.normalized componentName with
  | none => .noop
  | some config =>
    let finalProps := finalPropsOf jsonParse (traitsMapGet st.baseTraits) config attrs
    let element := RElement.mk config.component finalProps none
    .mounted (applyWrap st.strategy element componentName)

def mountedRootProps : RenderResult → Option JsObj
  | .noop => none
  | .mounted e => some e.rootProps

/-- Strip `n` provider layers off an element, returning the component tags
outside-in together with the remaining core element. -/
def peel : Nat → RElement → List Nat × RElement
  | 0, e => ([], e)
  | n + 1, .mk c _ (some child) =>
    let r := peel n child
    (c :: r.1, r.2)
  | _ + 1, .mk c p none => ([], .mk c p none)

/-- Modelled from the spec: first-occurrence-wins de-duplication by trait
name ("merged into one flat, de-duplicated-by-name list ... first occurrence
of a given name wins"), written as the canonical recursive dedup to compare
against the plugin's fold. -/
def dedupFirstByName : List TraitDefinition → List TraitDefinition
  | [] => []
  | t :: ts => t :: dedupFirstByName (ts.filter fun t2 => !(t2.name == t.name))
termination_by l => l.length
decreasing_by
  simp only [List.length_cons]
  exact Nat.lt_succ_of_le (List.length_filter_le _ _)

/-!
General lemmas about the JS object model: reads after writes, and the
behaviour of `assignMapped` folds.
-/

theorem oget_oset_self (o : JsObj) (k : String) (v : JsValue) :
    oget (oset o k v) k = some v := by
  induction o with
  | nil => simp [oget, oset, alistFind]
  | cons kv rest ih =>
    by_cases h : kv.1 = k
    · simp [oget, oset, alistFind, h]
    · simpa [oget, oset, alistFind, h] using ih

theorem oget_oset_ne (o : JsObj) (k k2 : String) (v : JsValue) (h : k ≠ k2) :
    oget (oset o k v) k2 = oget o k2 := by
  induction o with
  | nil => simp [oget, oset, alistFind, h]
  | cons kv rest ih =>
    by_cases hk : kv.1 = k
    · simp [oget, oset, alistFind, hk, h]
    · by_cases hk2 : kv.1 = k2
      · simp [oget, oset, alistFind, hk, hk2, Ne.symm h]
      · simpa [oget, oset, alistFind, hk, hk2] using ih

theorem okeys_oset (o : JsObj) (k : String) (v : JsValue) :
    okeys (oset o k v) = if k ∈ okeys o then okeys o else okeys o ++ [k] := by
  induction o with
  | nil => simp [okeys, oset]
  | cons kv rest ih =>
    by_cases hk : kv.1 = k
    · simp [okeys, oset, hk]
    · have hne : k ≠ kv.1 := fun hh => hk hh.symm
      simp only [okeys] at ih ⊢
      by_cases hm : k ∈ List.map Prod.fst rest
      · simp [oset, hk, ih, hne, hm]
      · simp [oset, hk, ih, hne, hm]

theorem nodup_okeys_oset (o : JsObj) (k : String) (v : JsValue)
    (h : (okeys o).Nodup) : (okeys (oset o k v)).Nodup := by
  rw [okeys_oset]
  by_cases hm : k ∈ okeys o
  · simpa [hm] using h
  · simp [hm, List.nodup_append, h]

theorem assignMapped_nil (p : String → JsValue → Bool) (f : String → JsValue → JsValue)
    (init : JsObj) : assignMapped p f init [] = init := rfl

theorem assignMapped_cons (p : String → JsValue → Bool) (f : String → JsValue → JsValue)
    (init : JsObj) (kv : String × JsValue) (rest : JsObj) :
    assignMapped p f init (kv :: rest)
      = assignMapped p f (if p kv.1 kv.2 then oset init kv.1 (f kv.1 kv.2) else init) rest := rfl

theorem oget_assignMapped_notMem (p : String → JsValue → Bool)
    (f : String → JsValue → JsValue) (src : JsObj) (init : JsObj) (k : String)
    (h : k ∉ okeys src) :
    oget (assignMapped p f init src) k = oget init k := by
  induction src generalizing init with
  | nil => rfl
  | cons kv rest ih =>
    simp only [okeys, List.map_cons, List.mem_cons, not_or] at h
    rw [assignMapped_cons]
    rw [ih _ (by simpa [okeys] using h.2)]
    by_cases hp : p kv.1 kv.2
    · simp [hp, oget_oset_ne _ _ _ _ (fun hh => h.1 hh.symm)]
    · simp [hp]

theorem oget_assignMapped_alwaysFalse (p : String → JsValue → Bool)
    (f : String → JsValue → JsValue) (src : JsObj) (init : JsObj) (k : String)
    (h : ∀ v, p k v = false) :
    oget (assignMapped p f init src) k = oget init k := by
  induction src generalizing init with
  | nil => rfl
  | cons kv rest ih =>
    rw [assignMapped_cons]
    by_cases hk : kv.1 = k
    · subst hk
      simp [h kv.2, ih]
    · by_cases hp : p kv.1 kv.2
      · rw [ih]
        simp [hp, oget_oset_ne _ _ _ _ hk]
      · simp [hp, ih]

theorem oget_assignMapped (p : String → JsValue → Bool)
    (f : String → JsValue → JsValue) (src : JsObj) (init : JsObj) (k : String)
    (h : (okeys src).Nodup) :
    oget (assignMapped p f init src) k =
      match oget src k with
      | some v => if p k v then some (f k v) else oget init k
      | none => oget init k := by
  induction src generalizing init with
  | nil => rfl
  | cons kv rest ih =>
    simp only [okeys, List.map_cons, List.nodup_cons] at h
    rw [assignMapped_cons]
    by_cases hp : p kv.1 kv.2
    · rw [if_pos hp]
      by_cases hk : kv.1 = k
      · subst hk
        have hnot : kv.1 ∉ okeys rest := by simpa [okeys] using h.1
        rw [oget_assignMapped_notMem _ _ _ _ _ hnot,
          show oget (kv :: rest) kv.1 = some kv.2 by simp [oget, alistFind]]
        simpa [hp] using oget_oset_self init kv.1 (f kv.1 kv.2)
      · rw [ih _ (by simpa [okeys] using h.2),
          show oget (kv :: rest) k = oget rest k by simp [oget, alistFind, hk]]
        cases hr : oget rest k with
        | none => simp [oget_oset_ne _ _ _ _ hk]
        | some v =>
          by_cases hpv : p k v
          · simp [hpv]
          · simp [hpv, oget_oset_ne _ _ _ _ hk]
    · rw [if_neg hp]
      by_cases hk : kv.1 = k
      · subst hk
        have hnot : kv.1 ∉ okeys rest := by simpa [okeys] using h.1
        rw [oget_assignMapped_notMem _ _ _ _ _ hnot,
          show oget (kv :: rest) kv.1 = some kv.2 by simp [oget, alistFind]]
        simp [hp]
      · rw [ih _ (by simpa [okeys] using h.2),
          show oget (kv :: rest) k = oget rest k by simp [oget, alistFind, hk]]

theorem nodup_okeys_assignMapped (p : String → JsValue → Bool)
    (f : String → JsValue → JsValue) (src : JsObj) (init : JsObj)
    (h : (okeys init).Nodup) : (okeys (assignMapped p f init src)).Nodup := by
  induction src generalizing init with
  | nil => exact h
  | cons kv rest ih =>
    rw [assignMapped_cons]
    by_cases hp : p kv.1 kv.2
    · simp only [hp, if_true]
      exact ih _ (nodup_okeys_oset _ _ _ h)
    · simp only [hp, if_false]
      exact ih _ h

theorem string_beq_comm (a b : String) : (a == b) = (b == a) := by
  by_cases h : a = b
  · simp [h]
  · simp [h, Ne.symm h]

/-!
Lemmas relating the plugin's trait-merge fold to the first-occurrence-wins
de-duplication it implements.
-/

theorem dedupPushTraits_append (base : List TraitDefinition) (a b : List TraitDefinition) :
    dedupPushTraits base (a ++ b) = dedupPushTraits (dedupPushTraits base a) b := by
  simp [dedupPushTraits, List.foldl_append]

theorem foldl_dedupPushTraits_eq_flatten (nc : List (String × ComponentConfig))
    (base : List TraitDefinition) :
    nc.foldl (fun acc c => dedupPushTraits acc (c.2.traits.getD [])) base
      = dedupPushTraits base ((nc.map fun c => c.2.traits.getD []).flatten) := by
  induction nc generalizing base with
  | nil => rfl
  | cons c rest ih => simp [List.foldl_cons, ih, dedupPushTraits_append]

theorem filter_and_traits (p q : TraitDefinition → Bool) (l : List TraitDefinition) :
    (l.filter p).filter q = l.filter fun a => p a && q a := by
  induction l with
  | nil => rfl
  | cons x xs ih => by_cases hp : p x <;> by_cases hq : q x <;> simp [List.filter_cons, hp, hq, ih]

theorem dedupPushTraits_eq_dedupFirst (l : List TraitDefinition) (acc : List TraitDefinition) :
    dedupPushTraits acc l
      = acc ++ dedupFirstByName
          (l.filter fun x => !(acc.any fun t2 => t2.name == x.name)) := by
  induction l generalizing acc with
  | nil => simp [dedupPushTraits, dedupFirstByName]
  | cons t ts ih =>
    rw [show dedupPushTraits acc (t :: ts) = dedupPushTraits (dedupStep acc t) ts from rfl]
    by_cases ha : acc.any fun t2 => t2.name == t.name
    · rw [show dedupStep acc t = acc by simp [dedupStep, ha]]
      rw [ih]
      congr 2
      simp [List.filter_cons, ha]
    · rw [show dedupStep acc t = acc ++ [t] by simp [dedupStep, ha]]
      rw [ih]
      rw [show (t :: ts).filter (fun x => !(acc.any fun t2 => t2.name == x.name))
          = t :: ts.filter (fun x => !(acc.any fun t2 => t2.name == x.name)) by
        simp [List.filter_cons, ha]]
      rw [show dedupFirstByName (t :: ts.filter fun x => !(acc.any fun t2 => t2.name == x.name))
          = t :: dedupFirstByName
              ((ts.filter fun x => !(acc.any fun t2 => t2.name == x.name)).filter
                fun t2 => !(t2.name == t.name)) from by rw [dedupFirstByName]]
      rw [filter_and_traits]
      rw [List.append_assoc, List.singleton_append]
      refine congrArg (fun L => acc ++ t :: dedupFirstByName L) ?_
      apply List.filter_congr
      intro x _
      simp [List.any_append, Bool.not_or, string_beq_comm t.name x.name, Bool.and_comm]

theorem buildBaseTraits_eq_dedupFirst (normalized : List (String × ComponentConfig)) :
    buildBaseTraits normalized
      = dedupFirstByName (selectTrait (normalized.map (·.1))
          :: (normalized.map fun c => c.2.traits.getD []).flatten) := by
  unfold buildBaseTraits
  rw [foldl_dedupPushTraits_eq_flatten, dedupPushTraits_eq_dedupFirst]
  rw [show dedupFirstByName (selectTrait (normalized.map (·.1))
        :: (normalized.map fun c => c.2.traits.getD []).flatten)
      = selectTrait (normalized.map (·.1))
        :: dedupFirstByName
            (((normalized.map fun c => c.2.traits.getD []).flatten).filter
              fun t2 => !(t2.name == (selectTrait (normalized.map (·.1))).name))
      from by rw [dedupFirstByName]]
  rw [List.singleton_append]
  refine congrArg (fun L => selectTrait (normalized.map (·.1)) :: dedupFirstByName L) ?_
  apply List.filter_congr
  intro x _
  simp [string_beq_comm (selectTrait (normalized.map (·.1))).name x.name]

/-- Stripping as many layers as there are provider configs off the folded
element recovers the configs' component tags outside-in and the original
element innermost. -/
theorem peel_foldr (ps : List ProviderConfig) (e : RElement) :
    peel ps.length (ps.foldr mkProviderElem e) = (ps.map (·.component), e) := by
  induction ps with
  | nil => rfl
  | cons p rest ih => simp [peel, mkProviderElem, List.foldr_cons, ih]

/-- Pointwise description of the object built by the wrapper mapper: an
attribute entry wins whenever its value is neither undefined nor null,
otherwise the defaults entry (when any) shows through. -/
theorem oget_wrapperMerged (defaults attrs : JsObj) (k : String)
    (hd : (okeys defaults).Nodup) (ha : (okeys attrs).Nodup) :
    oget (wrapperMerged defaults attrs) k =
      match oget attrs k with
      | some v => if v.isUndef || v.isNull then oget defaults k else some v
      | none => oget defaults k := by
  have h1 : (okeys (assignMapped (fun _ v => !v.isUndef) (fun _ v => v) [] defaults)).Nodup :=
    nodup_okeys_assignMapped _ _ _ _ (by simp [okeys])
  have h2 : (okeys (assignMapped (fun _ v => !v.isUndef && !v.isNull) (fun _ v => v)
      (assignMapped (fun _ v => !v.isUndef) (fun _ v => v) [] defaults) attrs)).Nodup :=
    nodup_okeys_assignMapped _ _ _ _ h1
  unfold wrapperMerged
  rw [oget_assignMapped _ _ _ _ _ h2]
  rw [oget_assignMapped _ _ _ _ _ ha]
  rw [oget_assignMapped _ _ _ _ _ hd]
  rw [oget_assignMapped _ _ _ _ _ hd]
  cases hA : oget attrs k with
  | none =>
    cases hD : oget defaults k with
    | none => simp [oget, alistFind]
    | some d => cases d <;> simp [JsValue.isUndef, oget, alistFind]
  | some v =>
    cases hD : oget defaults k with
    | none => cases v <;> simp [JsValue.isUndef, JsValue.isNull, oget, alistFind]
    | some d =>
      cases v <;> cases d <;> simp [JsValue.isUndef, JsValue.isNull, oget, alistFind]

/-!
Claim theorems.
-/

/-- Claim C2 (corrected), counterexample: a descriptor whose custom
mapProps is the identity receives the raw attributes and its result is used
verbatim, so both reserved keys appear in the props handed to the rendered
component, refuting the claim's "including when the descriptor supplies a
custom mapProps". -/
theorem c2_counterexample :
    (mountedRootProps (render (fun _ => none)
        (createReactComponentsPlugin
          { components := [("A", .config { component := 7, mapProps := some (fun a => a) })] })
        [("data-gjs-type", .str "react-comp"), ("component", .str "A")])).bind
      (fun props => oget props "component") = some (.str "A")
    ∧ (mountedRootProps (render (fun _ => none)
        (createReactComponentsPlugin
          { components := [("A", .config { component := 7, mapProps := some (fun a => a) })] })
        [("data-gjs-type", .str "react-comp"), ("component", .str "A")])).bind
      (fun props => oget props "data-gjs-type") = some (.str "react-comp") :=
  ⟨rfl, rfl⟩

/-- Claim C2 (amended): in the default mapping path the attribute loop never
writes the reserved keys 'component' and 'data-gjs-type' — whatever the
result holds at those keys comes solely from the defaultProps seeding; with
a custom mapProps the raw attributes (reserved keys included) are handed
over and its result is used verbatim, so there the reserved keys can
appear. -/
theorem c2_amended_reserved_keys (jsonParse : String → Option JsValue)
    (tmGet : String → Option TraitDefinition) (defaultProps : Option JsObj) (attrs : JsObj) :
    oget (buildRawProps jsonParse tmGet defaultProps attrs) "component"
        = oget (seedDefaultProps defaultProps) "component"
    ∧ oget (buildRawProps jsonParse tmGet defaultProps attrs) "data-gjs-type"
        = oget (seedDefaultProps defaultProps) "data-gjs-type" := by
  constructor <;>
  · unfold buildRawProps
    apply oget_assignMapped_alwaysFalse
    intro v
    simp

/-- Claim C4: in the default mapping path an empty-string attribute value is
treated as absent — the mapped value at that key is exactly what the
defaultProps seeding provides, so a default is never overridden by an
empty string. -/
theorem c4_empty_string_uses_default
    (jsonParse : String → Option JsValue) (tmGet : String → Option TraitDefinition)
    (defaultProps : Option JsObj) (attrs : JsObj) (k : String)
    (hnd : (okeys attrs).Nodup) (hk : oget attrs k = some (.str "")) :
    oget (buildRawProps jsonParse tmGet defaultProps attrs) k
      = oget (seedDefaultProps defaultProps) k := by
  unfold buildRawProps
  rw [oget_assignMapped _ _ _ _ _ hnd, hk]
  simp [JsValue.isEmptyStr]

/-- Claim C4 witness: defaults a=1 with attributes a='' map to a=1. -/
theorem c4_empty_string_uses_default_witness :
    oget (buildRawProps (fun _ => none) (fun _ => none)
        (some [("a", .num 1)]) [("a", .str "")]) "a" = some (.num 1) := by
  have h := c4_empty_string_uses_default (fun _ => none) (fun _ => none)
      (some [("a", .num 1)]) [("a", .str "")] "a" (by simp [okeys]) rfl
  exact h.trans rfl

/-- Claim C5: when a descriptor carries a custom mapProps, the final props
are exactly its value on the converted attributes, and the result is
invariant under replacing the descriptor's defaultProps — the default
overlay contributes nothing. -/
theorem c5_mapProps_verbatim (jsonParse : String → Option JsValue)
    (tmGet : String → Option TraitDefinition) (config : ComponentConfig) (attrs : JsObj)
    (mapP : JsObj → JsObj) (h : config.mapProps = some mapP) :
    finalPropsOf jsonParse tmGet config attrs = mapP attrs
    ∧ ∀ dp : Option JsObj,
        finalPropsOf jsonParse tmGet { config with defaultProps := dp } attrs = mapP attrs := by
  constructor
  · simp [finalPropsOf, h]
  · intro dp
    simp [finalPropsOf, h]

/-- Claim C5 witness: a wrapper-style mapProps fully determines the props. -/
theorem c5_mapProps_verbatim_witness :
    finalPropsOf (fun _ => none) (fun _ => none)
      { component := 0, defaultProps := some [("t", .num 9)],
        mapProps := some (fun a => oset [] "wrapped" (.obj a)) }
      [("t", .str "x")] = [("wrapped", .obj [("t", .str "x")])] := by
  exact (c5_mapProps_verbatim (fun _ => none) (fun _ => none)
      { component := 0, defaultProps := some [("t", .num 9)],
        mapProps := some (fun a => oset [] "wrapped" (.obj a)) }
      [("t", .str "x")] (fun a => oset [] "wrapped" (.obj a)) rfl).1.trans rfl

/-- Claim C8: JSON-trait decoding of a textual value that does not parse is
total and returns the original string unchanged, both in the parseJsonTrait
helper and in the inline decode of the render path (the warning is the only
side effect; nothing is thrown). -/
theorem c8_json_decode_fallback (jsonParse : String → Option JsValue) (s : String)
    (h : jsonParse s = none) :
    parseJsonTrait jsonParse (.str s) = .str s
    ∧ ∀ (tmGet : String → Option TraitDefinition) (k : String),
        applyJsonTrait tmGet jsonParse k (.str s) = .str s := by
  constructor
  · simp [parseJsonTrait, h]
  · intro tmGet k
    unfold applyJsonTrait
    cases htm : tmGet k with
    | none => rfl
    | some t => by_cases ht : t.type == .json <;> simp [ht, h]

/-- Claim C8 witness: a non-JSON string comes back unchanged. -/
theorem c8_json_decode_fallback_witness :
    parseJsonTrait (fun _ => none) (.str "not json") = .str "not json" :=
  (c8_json_decode_fallback (fun _ => none) "not json" rfl).1

/-- Claim C1 (corrected), counterexample: with component A registered and
defaultComponent set to A (a usable fallback), a node whose selector names
the unregistered B does NOT fall back — render is a no-op, refuting the
claim's "if the node's component-selector attribute names nothing
registered, rendering falls back to the configured defaultComponent". -/
theorem c1_counterexample :
    (createReactComponentsPlugin
        { components := [("A", .bare 0)], defaultComponent := some "A" }).fallbackName = some "A"
    ∧ (alistFind (createReactComponentsPlugin
        { components := [("A", .bare 0)], defaultComponent := some "A" }).normalized "A").isSome
        = true
    ∧ render (fun _ => none)
        (createReactComponentsPlugin
          { components := [("A", .bare 0)], defaultComponent := some "A" })
        [("component", .str "B")] = .noop :=
  ⟨rfl, rfl, rfl⟩

/-- Claim C1 (amended): the fallback name (defaultComponent when non-empty,
else the first registered key) is used exactly when the selector attribute
is absent, not a string, or the empty string; a non-empty selector string is
used as-is even when unregistered; and whenever the name so resolved (or the
JS key 'undefined' when none resolves) is not in the registry, render
short-circuits to a silent no-op with no mount, never an uncaught failure
(render is total). -/
theorem c1_amended_resolution (st : PluginState) (jsonParse : String → Option JsValue)
    (rawAttrs : JsObj) :
    (oget (toComponentAttributes rawAttrs) "component" = none →
        resolveComponentName st.fallbackName (toComponentAttributes rawAttrs) = st.fallbackName)
    ∧ (oget (toComponentAttributes rawAttrs) "component" = some (.str "") →
        resolveComponentName st.fallbackName (toComponentAttributes rawAttrs) = st.fallbackName)
    ∧ (∀ s : String, s ≠ "" →
        oget (toComponentAttributes rawAttrs) "component" = some (.str s) →
        resolveComponentName st.fallbackName (toComponentAttributes rawAttrs) = some s)
    ∧ (alistFind st.normalized
          ((resolveComponentName st.fallbackName (toComponentAttributes rawAttrs)).getD
            "undefined") = none →
        render jsonParse st rawAttrs = .noop)
    ∧ (∀ opts : PluginOptions, opts.defaultComponent = none →
        (createReactComponentsPlugin opts).fallbackName = (opts.components.map (·.1)).head?)
    ∧ (∀ (opts : PluginOptions) (s : String), opts.defaultComponent = some s → s ≠ "" →
        (createReactComponentsPlugin opts).fallbackName = some s) := by
  refine ⟨?_, ?_, ?_, ?_, ?_, ?_⟩
  · intro h
    simp [resolveComponentName, h]
  · intro h
    simp [resolveComponentName, h]
  · intro s hs h
    simp [resolveComponentName, h, hs]
  · intro h
    simp only [render]
    rw [h]
  · intro opts h
    simp [createReactComponentsPlugin, fallbackNameOf, h]
  · intro opts s h hs
    simp [createReactComponentsPlugin, fallbackNameOf, h, hs]

/-- Claim C1 witness: an empty registry resolves no name and render is a
silent no-op. -/
theorem c1_amended_resolution_witness :
    render (fun _ => none) (createReactComponentsPlugin { components := [] }) [] = .noop :=
  (c1_amended_resolution (createReactComponentsPlugin { components := [] })
    (fun _ => none) []).2.2.2.1 rfl

/-- Claim C3 (corrected), counterexample: in the wrapper mapper an
empty-string attribute value DOES override a default — with defaults x=1 and
attributes x='' the merged object carries the empty string, not the
default — refuting the claim's absent/empty-string rule. -/
theorem c3_counterexample :
    createWrapperMapper "uiComponent" [("x", .num 1)] [("x", .str "")]
      = [("uiComponent", .obj [("x", .str "")])]
    ∧ createWrapperMapper "uiComponent" [("x", .num 1)] [("x", .str "")]
      ≠ [("uiComponent", .obj [("x", .num 1)])] := by
  constructor
  · rfl
  · intro h
    simp [createWrapperMapper, wrapperMerged, assignMapped, oset, JsValue.isUndef,
      JsValue.isNull] at h

/-- Claim C3 (amended): the wrapper mapper nests the merged
defaults-then-attributes object one level under the wrapper key, where an
attribute wins on conflict whenever its value is present and neither
undefined nor null — in particular an empty-string attribute value also
overrides a default; the claim's two concrete examples hold as stated. -/
theorem c3_amended_wrapper_mapper (wrapperKey : String) (defaults attrs : JsObj)
    (hd : (okeys defaults).Nodup) (ha : (okeys attrs).Nodup) :
    (createWrapperMapper wrapperKey defaults attrs
        = [(wrapperKey, .obj (wrapperMerged defaults attrs))]
      ∧ ∀ k, oget (wrapperMerged defaults attrs) k =
          match oget attrs k with
          | some v => if v.isUndef || v.isNull then oget defaults k else some v
          | none => oget defaults k)
    ∧ createWrapperMapper "uiComponent" [("x", .num 1)] [("y", .num 2)]
        = [("uiComponent", .obj [("x", .num 1), ("y", .num 2)])]
    ∧ createWrapperMapper "uiComponent" [("x", .num 1)] [("x", .num 2)]
        = [("uiComponent", .obj [("x", .num 2)])] :=
  ⟨⟨rfl, fun k => oget_wrapperMerged defaults attrs k hd ha⟩, rfl, rfl⟩

/-- Claim C3 witness: instantiating the merge description at defaults x=1,
attributes x='' shows the attribute (an empty string) winning. -/
theorem c3_amended_wrapper_mapper_witness :
    oget (wrapperMerged [("x", .num 1)] [("x", .str "")]) "x" = some (.str "") :=
  ((c3_amended_wrapper_mapper "uiComponent" [("x", .num 1)] [("x", .str "")]
    (by simp [okeys]) (by simp [okeys])).1.2 "x").trans rfl

/-- Claim C6: with a non-empty providers list configured (and no custom
wrapper), the composed wrapper right-folds the list — peeling as many layers
as there are configs recovers the provider components outside-in, first
config outermost, and the original element innermost (the last config wraps
it directly). -/
theorem c6_provider_nesting_order (options : PluginOptions) (ps : List ProviderConfig)
    (e : RElement) (name : String)
    (h1 : options.wrapComponent = none) (h2 : options.providers = some ps) (h3 : ps ≠ []) :
    applyWrap (createProviderWrapper options) e name = ps.foldr mkProviderElem e
    ∧ peel ps.length (applyWrap (createProviderWrapper options) e name)
        = (ps.map (·.component), e) := by
  have hs : createProviderWrapper options = .providerList ps := by
    simp [createProviderWrapper, h1, h2, List.length_pos, h3]
  rw [hs]
  exact ⟨rfl, peel_foldr ps e⟩

/-- Claim C6 witness: providers A=1, B=2 around element E yield
A(children = B(children = E)). -/
theorem c6_provider_nesting_order_witness :
    applyWrap (createProviderWrapper
        { components := [], providers := some [⟨1, none⟩, ⟨2, none⟩] })
      (.mk 0 [] none) "A"
      = .mk 1 [] (some (.mk 2 [] (some (.mk 0 [] none))))
    ∧ peel 2 (applyWrap (createProviderWrapper
        { components := [], providers := some [⟨1, none⟩, ⟨2, none⟩] })
      (.mk 0 [] none) "A") = ([1, 2], .mk 0 [] none) := by
  have h := c6_provider_nesting_order
      { components := [], providers := some [⟨1, none⟩, ⟨2, none⟩] }
      [⟨1, none⟩, ⟨2, none⟩] (.mk 0 [] none) "A" rfl rfl (by simp)
  exact ⟨h.1.trans rfl, h.2⟩

/-- Claim C7: the provider-wrapper choice is a function of the plugin
options alone (it is computed once by createReactComponentsPlugin and closed
over by every render), selecting exactly one strategy in the fixed priority
order: custom wrapComponent, else non-empty providers list, else single
Provider with providerProps, else identity. -/
theorem c7_strategy_priority (options : PluginOptions) :
    (createReactComponentsPlugin options).strategy = createProviderWrapper options
    ∧ (∀ f, options.wrapComponent = some f → createProviderWrapper options = .custom f)
    ∧ (∀ ps, options.wrapComponent = none → options.providers = some ps → ps ≠ [] →
        createProviderWrapper options = .providerList ps)
    ∧ (∀ provider, options.wrapComponent = none →
        (options.providers = none ∨ options.providers = some []) →
        options.Provider = some provider →
        createProviderWrapper options = .single provider options.providerProps)
    ∧ (options.wrapComponent = none →
        (options.providers = none ∨ options.providers = some []) →
        options.Provider = none →
        createProviderWrapper options = .ident) := by
  refine ⟨rfl, ?_, ?_, ?_, ?_⟩
  · intro f h
    simp [createProviderWrapper, h]
  · intro ps h1 h2 h3
    simp [createProviderWrapper, h1, h2, List.length_pos, h3]
  · intro provider h1 h2 h3
    rcases h2 with h2 | h2 <;>
      simp [createProviderWrapper, singleOrIdent, h1, h2, h3]
  · intro h1 h2 h3
    rcases h2 with h2 | h2 <;>
      simp [createProviderWrapper, singleOrIdent, h1, h2, h3]

/-- Claim C7 witness: only a single Provider configured selects the
single-provider strategy. -/
theorem c7_strategy_priority_witness :
    createProviderWrapper { components := [], Provider := some 3 } = .single 3 none :=
  (c7_strategy_priority { components := [], Provider := some 3 }).2.2.2.1 3 rfl
    (Or.inl rfl) rfl

/-- Claim C9: the trait list exposed to the editor equals the
first-occurrence-wins de-duplication (by trait name) of the synthetic
component-selector select trait followed by all registered descriptors'
traits in declaration order — so the select trait enumerating the registered
names is prepended and, of two descriptors declaring the same trait name,
the first-declared definition survives. -/
theorem c9_trait_merge (options : PluginOptions) :
    (createReactComponentsPlugin options).baseTraits
      = dedupFirstByName
          (selectTrait ((normalizeComponents options.components).map (·.1))
            :: ((normalizeComponents options.components).map fun c =>
                  c.2.traits.getD []).flatten)
    ∧ ((createReactComponentsPlugin options).baseTraits).head?
      = some (selectTrait ((normalizeComponents options.components).map (·.1))) := by
  have h := buildBaseTraits_eq_dedupFirst (normalizeComponents options.components)
  constructor
  · exact h
  · rw [show (createReactComponentsPlugin options).baseTraits
        = buildBaseTraits (normalizeComponents options.components) from rfl, h]
    rw [dedupFirstByName]
    rfl

/-- Claim C10: in the default mapping path, whether an attribute is
JSON-decoded is decided solely by the globally merged trait map of the
plugin state — when that map marks the key as a json trait, the decoded
value (with raw-string fallback) lands in the final props for ANY selected
descriptor without a custom mapProps, regardless of that descriptor's own
trait list (which does not occur among the dependencies at all). -/
theorem c10_global_trait_map_decides_json
    (jsonParse : String → Option JsValue) (st : PluginState) (config : ComponentConfig)
    (attrs : JsObj) (k s : String) (t : TraitDefinition)
    (htm : traitsMapGet st.baseTraits k = some t) (hjson : t.type = .json)
    (hmap : config.mapProps = none)
    (hk : oget attrs k = some (.str s)) (hs : s ≠ "")
    (hc : k ≠ "component") (hg : k ≠ "data-gjs-type")
    (hnd : (okeys attrs).Nodup) :
    oget (finalPropsOf jsonParse (traitsMapGet st.baseTraits) config attrs) k
      = some ((jsonParse s).getD (.str s)) := by
  rw [show finalPropsOf jsonParse (traitsMapGet st.baseTraits) config attrs
      = buildRawProps jsonParse (traitsMapGet st.baseTraits) config.defaultProps attrs
      from by simp [finalPropsOf, hmap]]
  unfold buildRawProps
  rw [oget_assignMapped _ _ _ _ _ hnd, hk]
  simp only [JsValue.isUndef, JsValue.isNull, JsValue.isEmptyStr]
  rw [if_pos (by simp [hc, hg, hs])]
  simp only [applyJsonTrait, htm]
  rw [if_pos (by simp [hjson])]
  cases hps : jsonParse s <;> simp [hps]

/-- Claim C10 witness: descriptor A (registered first) declares trait
'data' as json, the selected descriptor B declares the same name as a text
trait — the attribute is decoded anyway, because the merged map's
first-declared trait wins. -/
theorem c10_global_trait_map_decides_json_witness :
    oget (finalPropsOf (fun q => if q = "5" then some (.num 5) else none)
        (traitsMapGet (createReactComponentsPlugin
          { components := [
              ("A", .config { component := 0, traits := some [{ type := .json, name := "data", label := "Data" }] }),
              ("B", .config { component := 1, traits := some [{ type := .text, name := "data", label := "Data" }] })] }).baseTraits)
        { component := 1, traits := some [{ type := .text, name := "data", label := "Data" }] }
        [("data", .str "5")]) "data" = some (.num 5) := by
  have h := c10_global_trait_map_decides_json
      (fun q => if q = "5" then some (.num 5) else none)
      (createReactComponentsPlugin
        { components := [
            ("A", .config { component := 0, traits := some [{ type := .json, name := "data", label := "Data" }] }),
            ("B", .config { component := 1, traits := some [{ type := .text, name := "data", label := "Data" }] })] })
      { component := 1, traits := some [{ type := .text, name := "data", label := "Data" }] }
      [("data", .str "5")] "data" "5"
      { type := .json, name := "data", label := "Data" }
      rfl rfl rfl rfl (by decide) (by decide) (by decide) (by simp [okeys])
  exact h.trans rfl

end GrapesReact
